import Mathlib

set_option linter.unusedVariables false

/-! Shallow embedding of the Cloudflare Worker `worker.js` of the Kubernetes API proxy.
    Strings are Lean `String`s; every character-level operation used by the worker is
    implemented by structural recursion over `List Char` so that it evaluates inside
    the kernel. -/

/-- ASCII lower-casing of one character; models `String.prototype.toLowerCase` on the
ASCII inputs this program handles. -/
def asciiLower (c : Char) : Char :=
  if 'A' ≤ c ∧ c ≤ 'Z' then Char.ofNat (c.toNat + 32) else c

/-- Models `s.toLowerCase()`. -/
def jsToLower (s : String) : String := String.mk (s.data.map asciiLower)

/-- Whitespace test for `String.prototype.trim` (ASCII subset). -/
def isJsWhitespace (c : Char) : Bool := c = ' ' || c = '\t' || c = '\n' || c = '\r'

/-- Models `s.trim()`. -/
def jsTrim (s : String) : String :=
  String.mk (((s.data.dropWhile isJsWhitespace).reverse.dropWhile isJsWhitespace).reverse)

/-- Splitting a character list at commas; every comma separates two (possibly empty)
fields, as in `String.prototype.split(',')`. -/
def splitOnComma : List Char → List (List Char)
  | [] => [[]]
  | c :: rest =>
    let r := splitOnComma rest
    if c = ',' then [] :: r
    else (c :: r.headD []) :: r.tail

/-- Models `s.split(',')`. -/
def jsSplitComma (s : String) : List String := (splitOnComma s.data).map String.mk

/-- Models `s.startsWith(p)`. -/
def jsStartsWith (s p : String) : Bool := p.data.isPrefixOf s.data

/-- Models `s.endsWith(p)`. -/
def jsEndsWith (s p : String) : Bool := p.data.reverse.isPrefixOf s.data.reverse

/-- Models `s.slice(n)` for a nonnegative `n` within bounds. -/
def jsSlice (s : String) (n : Nat) : String := String.mk (s.data.drop n)

/-- Models JS string-or: `a || b` where `a` and `b` are strings (empty is falsy). -/
def jsOrS (a b : String) : String := if a = "" then b else a

/-- Models `x || d` where `x` is a possibly-absent (nullable) string. -/
def jsOr (o : Option String) (d : String) : String :=
  match o with
  | some s => jsOrS s d
  | none => d

/-- Models JS truthiness of a nullable string (null and the empty string are falsy). -/
def truthyOpt : Option String → Bool
  | some s => !(s == "")
  | none => false

/-- The slice of a WHATWG URL that the worker inspects. -/
structure ParsedUrl where
  protocol : String
  hostname : String
deriving DecidableEq

/-- Characters allowed in a URL scheme. -/
def schemeCharOk (c : Char) : Bool := c.isAlpha || c.isDigit || c = '+' || c = '-' || c = '.'

/-- Splits `scheme "://" rest` into the scheme characters and the remainder. -/
def splitScheme : List Char → Option (List Char × List Char)
  | [] => none
  | ':' :: '/' :: '/' :: rest => some ([], rest)
  | c :: rest => (splitScheme rest).map (fun p => (c :: p.1, p.2))

/-- Model of the platform URL constructor `new URL(s)`, restricted to the parts the
worker reads: the scheme (as `protocol`, with trailing colon) and the host
(lower-cased, port excluded). Inputs without a `scheme://` part, with an invalid
scheme, or special-scheme URLs with an empty host yield `none` (the constructor
would throw). -/
def parseUrlModel (s : String) : Option ParsedUrl :=
  match splitScheme s.data with
  | none => none
  | some (schemeChars, rest) =>
    if schemeChars.isEmpty then none
    else if !(schemeChars.headD 'a').isAlpha then none
    else if !(schemeChars.all schemeCharOk) then none
    else
      let scheme := jsToLower (String.mk schemeChars)
      let host := jsToLower (String.mk (rest.takeWhile
        (fun c => !(c = '/' || c = '?' || c = '#' || c = ':'))))
      if (scheme == "http" || scheme == "https" || scheme == "ws" ||
          scheme == "wss" || scheme == "ftp") && host == "" then none
      else some ⟨scheme ++ ":", host⟩

/-- Result record of `validateApiUrl`. -/
structure UrlValidation where
  valid : Bool
  error : Option String
deriving DecidableEq

/-- Embeds `validateApiUrl` (worker.js). -/
def validateApiUrl (urlString : String) : UrlValidation :=
  if urlString = "" then ⟨false, some "URL is required and must be a string"⟩
  else
    match parseUrlModel urlString with
    | none => ⟨false, some "URL is malformed"⟩
    | some url =>
      if url.protocol ≠ "https:" then ⟨false, some "URL must use HTTPS protocol"⟩
      else if url.hostname = "" then ⟨false, some "URL must have a valid hostname"⟩
      else
        let hostname := jsToLower url.hostname
        if hostname == "localhost" || hostname == "127.0.0.1" ||
            jsStartsWith hostname "192.168." || jsStartsWith hostname "10." then
          ⟨false, some "URL cannot point to localhost or private networks"⟩
        else ⟨true, none⟩

/-- Result record of `validateOrigin`. -/
structure OriginDecision where
  allowed : Bool
  matchedOrigin : String
deriving DecidableEq

/-- Embeds `validateOrigin` (worker.js). The `origin` argument is the nullable
`Origin` request header; `allowedOrigins` is the configured comma-separated list. -/
def validateOrigin (origin : Option String) (allowedOrigins : String) : OriginDecision :=
  if allowedOrigins = "*" then ⟨true, "*"⟩
  else
    match origin with
    | none => ⟨false, ""⟩
    | some o =>
      if o = "" then ⟨false, ""⟩
      else
        let allowedList := (jsSplitComma allowedOrigins).map (fun s => jsToLower (jsTrim s))
        let requestOrigin := jsToLower o
        if allowedList.contains requestOrigin then ⟨true, o⟩
        else if allowedList.any (fun allowed =>
            jsStartsWith allowed "*." &&
            (match parseUrlModel requestOrigin with
             | some originUrl =>
               jsEndsWith originUrl.hostname ("." ++ jsSlice allowed 2) ||
               originUrl.hostname == jsSlice allowed 2
             | none => false)) then ⟨true, o⟩
        else ⟨false, ""⟩

/-- Models the single left-to-right scan of `path.replace(/\.\./g, '')`: removal of
non-overlapping occurrences of `".."`, resuming after each removed match. -/
def removeDotDot : List Char → List Char
  | [] => []
  | [c] => [c]
  | c :: d :: rest =>
    if c = '.' ∧ d = '.' then removeDotDot rest
    else c :: removeDotDot (d :: rest)

/-- Models `s.replace(/\/+/g, '/')`: every maximal run of slashes collapses to a
single slash (a slash immediately followed by a slash is dropped). -/
def collapseSlashes : List Char → List Char
  | [] => []
  | [c] => [c]
  | c :: d :: rest =>
    if c = '/' ∧ d = '/' then collapseSlashes (d :: rest)
    else c :: collapseSlashes (d :: rest)

/-- Embeds `sanitizePath` (worker.js). -/
def sanitizePath (path : String) : String :=
  let sanitized := String.mk (collapseSlashes (removeDotDot path.data))
  if jsStartsWith sanitized "/" then sanitized else "/" ++ sanitized

/-- Case-insensitive equality of header names, as used by the platform `Headers`. -/
def lowerEq (a b : String) : Bool := jsToLower a == jsToLower b

/-- Models `headers.get(name)` over a header list: the value of the first entry whose
name matches case-insensitively. -/
def headersGet (hs : List (String × String)) (name : String) : Option String :=
  (hs.find? (fun p => lowerEq p.1 name)).map Prod.snd

/-- Models `headers.delete(name)`: removes every entry with that name. -/
def headersDelete (hs : List (String × String)) (name : String) : List (String × String) :=
  hs.filter (fun p => !(lowerEq p.1 name))

/-- Models `headers.set(name, value)`: afterwards exactly one entry carries the name,
with the given value. (The platform keeps the original position; the embedding appends
instead. Lookup results are identical, and the claims only read lookups.) -/
def headersSet (hs : List (String × String)) (name value : String) : List (String × String) :=
  hs.filter (fun p => !(lowerEq p.1 name)) ++ [(name, value)]

/-- Embeds `hardenHeaders` (worker.js): the response-side header transformation of the
successful proxy branch. -/
def hardenHeaders (headers : List (String × String)) (allowedOrigin requestId : String) :
    List (String × String) :=
  let h1 := headersSet headers "Access-Control-Allow-Origin" allowedOrigin
  let h2 := headersSet h1 "Access-Control-Expose-Headers" "X-Request-ID"
  let h3 := headersSet h2 "X-Content-Type-Options" "nosniff"
  let h4 := headersSet h3 "X-Frame-Options" "DENY"
  let h5 := headersSet h4 "X-XSS-Protection" "1; mode=block"
  let h6 := headersSet h5 "Referrer-Policy" "strict-origin-when-cross-origin"
  let h7 := headersSet h6 "Strict-Transport-Security" "max-age=31536000; includeSubDomains; preload"
  let h8 := headersSet h7 "X-Request-ID" requestId
  let h9 := headersSet h8 "Cache-Control" "no-store, no-cache, must-revalidate"
  let h10 := headersSet h9 "Pragma" "no-cache"
  let h11 := headersDelete h10 "Server"
  headersDelete h11 "X-Powered-By"

/-- A thrown JS error, as far as the worker reads it (`err.message`, `err.stack`). -/
structure JsError where
  message : String
  stack : String
deriving DecidableEq

/-- The JSON error envelope built by `createErrorResponse`; `details`/`stack` are the
optional development-only fields. -/
structure ErrorBody where
  error : String
  message : String
  requestId : String
  details : Option String
  stack : Option String
deriving DecidableEq

/-- The distinct response bodies the worker produces. Each JSON constructor mirrors the
corresponding `JSON.stringify` literal of the source; `upstream` is a proxied upstream
body stream. -/
inductive Body where
  | empty
  | text (s : String)
  | configError (message requestId : String)
  | forbidden (message requestId : String)
  | health (status version env requestId : String)
  | gatewayError (e : ErrorBody)
  | upstream (b : String)
deriving DecidableEq

/-- A `Response` as far as the claims read it: status, header list, body.
(`statusText` is passed through verbatim by the worker and inspected by no claim;
it is omitted.) -/
structure Resp where
  status : Nat
  headers : List (String × String)
  body : Body
deriving DecidableEq

/-- Behavior of the platform `fetch` on the target URL: an upstream response, or a
thrown error. -/
inductive UpstreamResult where
  | ok (status : Nat) (headers : List (String × String)) (body : String)
  | throws (err : JsError)
deriving DecidableEq

/-- Result of one invocation of the worker's `fetch` handler. `passthrough` stands for
`return fetch(request)` to the default serving origin on dashboard paths. -/
inductive Outcome where
  | response (r : Resp)
  | passthrough
deriving DecidableEq

/-- The incoming request, as far as the handler reads it. -/
structure Req where
  method : String
  pathname : String
  search : String
  origin : Option String
  upgrade : Option String
deriving DecidableEq

/-- The worker environment bindings. -/
structure EnvCfg where
  K8S_API_URL : Option String
  ALLOWED_ORIGIN : Option String
  K8S_BEARER_TOKEN : Option String
  ENVIRONMENT : Option String
deriving DecidableEq

def VERSION : String := "1.0.2"

def DEFAULT_UPSTREAM_URL : String := "https://api.scarmonit.com"

/-- Embeds `createErrorResponse` (worker.js). -/
def createErrorResponse (err : JsError) (requestId environment allowedOrigin : String) : Resp :=
  let errorBody : ErrorBody :=
    { error := "Gateway Error"
      message := "The Kubernetes API server could not be reached."
      requestId := requestId
      details := if environment = "development" then some err.message else none
      stack := if environment = "development" then some err.stack else none }
  ⟨502,
   [("Content-Type", "application/json"),
    ("Access-Control-Allow-Origin", jsOrS allowedOrigin "*")],
   Body.gatewayError errorBody⟩

/-- Embeds `handleCorsPreflight` (worker.js). -/
def handleCorsPreflight (allowedOrigin : String) : Resp :=
  ⟨204,
   [("Access-Control-Allow-Origin", allowedOrigin),
    ("Access-Control-Allow-Methods", "GET, POST, PUT, DELETE, OPTIONS, PATCH"),
    ("Access-Control-Allow-Headers", "Authorization, Content-Type, X-CSRF-Token, X-Request-ID, Upgrade, Connection"),
    ("Access-Control-Expose-Headers", "X-Request-ID"),
    ("Access-Control-Max-Age", "86400")],
   Body.empty⟩

/-- Embeds `isDashboardPath` (worker.js). -/
def isDashboardPath (pathname : String) : Bool :=
  pathname == "/kubernetes" || pathname == "/kubernetes/" ||
    jsStartsWith pathname "/kubernetes/dashboard"

/-- Models `new URL(path, base).toString()` for an absolute base and a path starting
with `/`: the base's scheme, host and port are kept, its path and query replaced. -/
def urlOriginOf (base : String) : String :=
  match splitScheme base.data with
  | some (schemeChars, rest) =>
    String.mk (schemeChars ++ (':' :: '/' :: '/' ::
      rest.takeWhile (fun c => !(c = '/' || c = '?' || c = '#'))))
  | none => base

def resolveUrl (path base : String) : String := urlOriginOf base ++ path

/-- Embeds the worker's top-level `fetch` handler (the exported default of worker.js).
`requestId` stands for the generated `crypto.randomUUID()`; `upstream` models the
platform `fetch` at the computed target URL. Structured logging is omitted (pure
observability, inspected by no claim), as is the construction of the outbound header
map (consumed only by the upstream). -/
def fetchHandler (req : Req) (env : EnvCfg) (requestId : String)
    (upstream : String → UpstreamResult) : Outcome :=
  let environment := jsOr env.ENVIRONMENT "production"
  let upstreamUrl := jsOr env.K8S_API_URL DEFAULT_UPSTREAM_URL
  let allowedOrigin := jsOr env.ALLOWED_ORIGIN "*"
  let urlValidation := validateApiUrl upstreamUrl
  if urlValidation.valid = false then
    Outcome.response ⟨500, [("Content-Type", "application/json")],
      Body.configError
        (if environment = "development" then urlValidation.error.getD "" else "Server misconfigured")
        requestId⟩
  else if req.pathname = "/robots.txt" then
    Outcome.response ⟨200, [("Content-Type", "text/plain")],
      Body.text "User-agent: *\nDisallow: /"⟩
  else
    let corsValidation := validateOrigin req.origin allowedOrigin
    if req.method = "OPTIONS" then
      if corsValidation.allowed = false ∧ allowedOrigin ≠ "*" then
        Outcome.response ⟨403, [], Body.empty⟩
      else
        Outcome.response (handleCorsPreflight (jsOrS corsValidation.matchedOrigin allowedOrigin))
    else if req.pathname = "/kubernetes/proxy-health" then
      Outcome.response ⟨200, [("Content-Type", "application/json")],
        Body.health "ok" VERSION environment requestId⟩
    else if jsStartsWith req.pathname "/kubernetes" = false then
      Outcome.response ⟨404, [], Body.text "Not Found"⟩
    else if isDashboardPath req.pathname = true then
      Outcome.passthrough
    else if allowedOrigin ≠ "*" ∧ truthyOpt req.origin = true ∧ corsValidation.allowed = false then
      Outcome.response ⟨403, [("Content-Type", "application/json")],
        Body.forbidden "Origin not allowed" requestId⟩
    else
      let rawPath := jsSlice req.pathname 11
      let strippedPath := sanitizePath rawPath
      let targetUrl := resolveUrl strippedPath upstreamUrl ++ req.search
      if (req.upgrade.any fun u => jsToLower u == "websocket") = true then
        match upstream targetUrl with
        | UpstreamResult.ok s hs b => Outcome.response ⟨s, hs, Body.upstream b⟩
        | UpstreamResult.throws err =>
          Outcome.response (createErrorResponse err requestId environment (jsOr env.ALLOWED_ORIGIN "*"))
      else
        match upstream targetUrl with
        | UpstreamResult.ok s hs b =>
          let effectiveOrigin :=
            jsOrS corsValidation.matchedOrigin (if allowedOrigin = "*" then "*" else "")
          Outcome.response ⟨s, hardenHeaders hs effectiveOrigin requestId, Body.upstream b⟩
        | UpstreamResult.throws err =>
          Outcome.response (createErrorResponse err requestId environment (jsOr env.ALLOWED_ORIGIN "*"))

/-! Theorems. First the sanitizer: absence of the substrings `".."` and `"//"`,
and idempotence (claim C4). -/

/-- Two adjacent occurrences of the character `a` appear somewhere in the list. -/
def hasPair (a : Char) : List Char → Bool
  | [] => false
  | [_] => false
  | c :: d :: rest => (c == a && d == a) || hasPair a (d :: rest)

theorem hasPair_cons_false (a c : Char) (l : List Char)
    (hc : c ≠ a ∨ l.head? ≠ some a) (hl : hasPair a l = false) :
    hasPair a (c :: l) = false := by
  match l with
  | [] => rfl
  | d :: rest =>
    simp only [hasPair, Bool.or_eq_false_iff]
    refine ⟨?_, hl⟩
    rcases hc with hc | hc
    · simp [beq_eq_false_iff_ne.mpr hc]
    · have hd : d ≠ a := by
        intro h
        exact hc (by simp [h])
      simp [beq_eq_false_iff_ne.mpr hd]

theorem hasPair_cons_of_tail (a c : Char) (l : List Char) (hl : hasPair a l = true) :
    hasPair a (c :: l) = true := by
  match l with
  | [] => simp [hasPair] at hl
  | d :: rest => simp [hasPair, hl]

theorem hasPair_tail (a c : Char) (l : List Char) (h : hasPair a (c :: l) = false) :
    hasPair a l = false := by
  match l with
  | [] => rfl
  | d :: rest =>
    simp only [hasPair, Bool.or_eq_false_iff] at h
    exact h.2

theorem hasPair_of_infix (a : Char) (l : List Char) (h : [a, a] <:+: l) :
    hasPair a l = true := by
  obtain ⟨s, t, rfl⟩ := h
  induction s with
  | nil => simp [hasPair]
  | cons c s ih => simpa using hasPair_cons_of_tail a c _ (by simpa using ih)

theorem removeDotDot_head (d : Char) (rest : List Char) (hd : d ≠ '.') :
    (removeDotDot (d :: rest)).head? ≠ some '.' := by
  match rest with
  | [] => simpa [removeDotDot] using hd
  | e :: r =>
    rw [removeDotDot, if_neg (fun hpair => hd hpair.1)]
    simpa using hd

theorem removeDotDot_noPair (l : List Char) : hasPair '.' (removeDotDot l) = false := by
  induction l using removeDotDot.induct with
  | case1 => rfl
  | case2 c => rfl
  | case3 c d rest h ih => rw [removeDotDot, if_pos h]; exact ih
  | case4 c d rest h ih =>
    rw [removeDotDot, if_neg h]
    refine hasPair_cons_false _ _ _ ?_ ih
    by_cases hc : c = '.'
    · right
      exact removeDotDot_head d rest (fun hd => h ⟨hc, hd⟩)
    · left
      exact hc

theorem removeDotDot_id (l : List Char) (h : hasPair '.' l = false) : removeDotDot l = l := by
  induction l using removeDotDot.induct with
  | case1 => rfl
  | case2 c => rfl
  | case3 c d rest hcd ih => simp [hasPair, hcd.1, hcd.2] at h
  | case4 c d rest hcd ih =>
    rw [removeDotDot, if_neg hcd, ih (hasPair_tail _ _ _ h)]

theorem collapseSlashes_head (l : List Char) : (collapseSlashes l).head? = l.head? := by
  induction l using collapseSlashes.induct with
  | case1 => rfl
  | case2 c => rfl
  | case3 c d rest h ih =>
    rw [collapseSlashes, if_pos h, ih]
    simp [h.1, h.2]
  | case4 c d rest h ih => rw [collapseSlashes, if_neg h]; rfl

theorem collapseSlashes_noPair (l : List Char) : hasPair '/' (collapseSlashes l) = false := by
  induction l using collapseSlashes.induct with
  | case1 => rfl
  | case2 c => rfl
  | case3 c d rest h ih => rw [collapseSlashes, if_pos h]; exact ih
  | case4 c d rest h ih =>
    rw [collapseSlashes, if_neg h]
    refine hasPair_cons_false _ _ _ ?_ ih
    by_cases hc : c = '/'
    · right
      rw [collapseSlashes_head]
      simp only [List.head?_cons]
      intro hd
      exact h ⟨hc, by injection hd⟩
    · left
      exact hc

theorem collapseSlashes_pres (a : Char) (l : List Char) (h : hasPair a l = false) :
    hasPair a (collapseSlashes l) = false := by
  induction l using collapseSlashes.induct with
  | case1 => rfl
  | case2 c => rfl
  | case3 c d rest hcd ih =>
    rw [collapseSlashes, if_pos hcd]
    exact ih (hasPair_tail _ _ _ h)
  | case4 c d rest hcd ih =>
    rw [collapseSlashes, if_neg hcd]
    simp only [hasPair, Bool.or_eq_false_iff, Bool.and_eq_false_iff] at h
    refine hasPair_cons_false _ _ _ ?_ (ih h.2)
    rcases h.1 with hca | hda
    · left
      exact beq_eq_false_iff_ne.mp hca
    · right
      rw [collapseSlashes_head]
      simp only [List.head?_cons]
      intro hd
      exact beq_eq_false_iff_ne.mp hda (by injection hd)

theorem collapseSlashes_id (l : List Char) (h : hasPair '/' l = false) :
    collapseSlashes l = l := by
  induction l using collapseSlashes.induct with
  | case1 => rfl
  | case2 c => rfl
  | case3 c d rest hcd ih => simp [hasPair, hcd.1, hcd.2] at h
  | case4 c d rest hcd ih =>
    rw [collapseSlashes, if_neg hcd, ih (hasPair_tail _ _ _ h)]

theorem isPrefixOf_slash (l : List Char) :
    ['/'].isPrefixOf l = true ↔ l.head? = some '/' := by
  match l with
  | [] =>
    constructor
    · intro h
      exact absurd h (by decide)
    · intro h
      exact absurd h (by simp)
  | c :: r =>
    have h1 : ['/'].isPrefixOf (c :: r) = ('/' == c) := by
      show (('/' == c) && List.isPrefixOf [] r) = ('/' == c)
      simp
    rw [h1]
    simp only [beq_iff_eq, List.head?_cons, Option.some.injEq]
    exact eq_comm

theorem sanitizePath_of_clean (s : String) (hdot : hasPair '.' s.data = false)
    (hslash : hasPair '/' s.data = false) (hhead : s.data.head? = some '/') :
    sanitizePath s = s := by
  have hmk : String.mk s.data = s := by
    cases s
    rfl
  simp only [sanitizePath]
  rw [removeDotDot_id _ hdot, collapseSlashes_id _ hslash, hmk]
  have hc : jsStartsWith s "/" = true := by
    show ("/" : String).data.isPrefixOf s.data = true
    have hd : ("/" : String).data = ['/'] := rfl
    rw [hd]
    exact (isPrefixOf_slash _).mpr hhead
  rw [if_pos hc]

/-- C4: `sanitizePath` is idempotent, and its output never contains the substring
".." nor the substring "//" (stated as: neither two-character list is an infix of
the output's character list). -/
theorem sanitizePath_idempotent_and_clean (p : String) :
    sanitizePath (sanitizePath p) = sanitizePath p ∧
    ¬ ['.', '.'] <:+: (sanitizePath p).data ∧
    ¬ ['/', '/'] <:+: (sanitizePath p).data := by
  have hdotL : hasPair '.' (collapseSlashes (removeDotDot p.data)) = false :=
    collapseSlashes_pres _ _ (removeDotDot_noPair _)
  have hslashL : hasPair '/' (collapseSlashes (removeDotDot p.data)) = false :=
    collapseSlashes_noPair _
  have key : hasPair '.' (sanitizePath p).data = false ∧
      hasPair '/' (sanitizePath p).data = false ∧
      (sanitizePath p).data.head? = some '/' := by
    simp only [sanitizePath]
    by_cases h : jsStartsWith (String.mk (collapseSlashes (removeDotDot p.data))) "/" = true
    · rw [if_pos h]
      exact ⟨hdotL, hslashL, (isPrefixOf_slash _).mp h⟩
    · rw [if_neg h]
      have hhd : (collapseSlashes (removeDotDot p.data)).head? ≠ some '/' := by
        intro hx
        exact h ((isPrefixOf_slash _).mpr hx)
      have hdata : (("/" : String) ++ String.mk (collapseSlashes (removeDotDot p.data))).data
          = '/' :: collapseSlashes (removeDotDot p.data) := rfl
      rw [hdata]
      refine ⟨?_, ?_, rfl⟩
      · exact hasPair_cons_false _ _ _ (Or.inl (by decide)) hdotL
      · exact hasPair_cons_false _ _ _ (Or.inr hhd) hslashL
  refine ⟨sanitizePath_of_clean _ key.1 key.2.1 key.2.2, ?_, ?_⟩
  · intro hinf
    have hp := hasPair_of_infix '.' _ hinf
    rw [key.1] at hp
    exact Bool.noConfusion hp
  · intro hinf
    have hp := hasPair_of_infix '/' _ hinf
    rw [key.2.1] at hp
    exact Bool.noConfusion hp

/-! Origin validation: structure of the decision (claims C5, C8, C9). -/

theorem validateOrigin_cases (origin : Option String) (ao : String) :
    (ao = "*" ∧ validateOrigin origin ao = ⟨true, "*"⟩) ∨
    ((validateOrigin origin ao).allowed = false ∧
      (validateOrigin origin ao).matchedOrigin = "") ∨
    (∃ o, origin = some o ∧ o ≠ "" ∧ validateOrigin origin ao = ⟨true, o⟩) := by
  simp only [validateOrigin]
  split
  · next h => exact Or.inl ⟨h, rfl⟩
  · split
    · exact Or.inr (Or.inl ⟨rfl, rfl⟩)
    · next o =>
      split
      · exact Or.inr (Or.inl ⟨rfl, rfl⟩)
      · next ho =>
        split
        · exact Or.inr (Or.inr ⟨o, rfl, ho, rfl⟩)
        · split
          · exact Or.inr (Or.inr ⟨o, rfl, ho, rfl⟩)
          · exact Or.inr (Or.inl ⟨rfl, rfl⟩)

theorem validateOrigin_matched_ne_empty (origin : Option String) (ao : String)
    (h : (validateOrigin origin ao).allowed = true) :
    (validateOrigin origin ao).matchedOrigin ≠ "" := by
  rcases validateOrigin_cases origin ao with ⟨_, hv⟩ | ⟨ha, _⟩ | ⟨o, _, ho, hv⟩
  · rw [hv]
    decide
  · rw [ha] at h
    exact Bool.noConfusion h
  · rw [hv]
    exact ho

/-- C5 (amended): under any non-wildcard policy the echo origin is either the empty
string or exactly the client's Origin header value (so it can be `*` or a pattern
string only when the client's Origin header itself carries that exact value). -/
theorem validateOrigin_echo_nonwildcard (origin : Option String) (ao : String)
    (h : ao ≠ "*") :
    (validateOrigin origin ao).matchedOrigin = "" ∨
      some (validateOrigin origin ao).matchedOrigin = origin := by
  rcases validateOrigin_cases origin ao with ⟨hw, _⟩ | ⟨_, hm⟩ | ⟨o, ho, _, hv⟩
  · exact absurd hw h
  · exact Or.inl hm
  · right
    rw [hv, ho]

/-- C5 amended-claim witness at a concrete non-wildcard policy and origin. -/
theorem validateOrigin_echo_nonwildcard_witness :
    ("https://a.com" : String) ≠ "*" ∧
      ((validateOrigin (some "https://b.io") "https://a.com").matchedOrigin = "" ∨
        some (validateOrigin (some "https://b.io") "https://a.com").matchedOrigin =
          some "https://b.io") :=
  ⟨by decide, validateOrigin_echo_nonwildcard (some "https://b.io") "https://a.com" (by decide)⟩

/-- C5 counterexample: with the non-wildcard configured list `"*,https://a.com"` and a
client Origin header of literally `"*"`, the decision is allowed with echo origin `"*"`,
although the policy is not the wildcard policy. -/
theorem validateOrigin_star_echo_counterexample :
    validateOrigin (some "*") "*,https://a.com" = ⟨true, "*"⟩ ∧
      ("*,https://a.com" : String) ≠ "*" := by decide

/-- C8: under the exact list `https://a.com,https://b.com`, the case-varied origin
`https://B.COM` is allowed and echoed in the client's original case. -/
theorem validateOrigin_exactList_caseInsensitive :
    validateOrigin (some "https://B.COM") "https://a.com,https://b.com" =
      ⟨true, "https://B.COM"⟩ := by decide

/-- C9: under the subdomain-wildcard policy `*.example.com`, the origin
`https://app.example.com` is allowed and `https://notexample.com` is rejected. -/
theorem validateOrigin_subdomainWildcard :
    (validateOrigin (some "https://app.example.com") "*.example.com").allowed = true ∧
      (validateOrigin (some "https://notexample.com") "*.example.com").allowed = false := by
  decide

/-! Header-map lemmas, leading to the hardening property (claim C6). -/

theorem lowerEq_trans_eq (a b c : String) (h : lowerEq a b = true) :
    lowerEq a c = lowerEq b c := by
  simp only [lowerEq, beq_iff_eq] at h
  simp only [lowerEq, h]

theorem lowerEq_symm (a b : String) : lowerEq a b = lowerEq b a := by
  simp only [lowerEq]
  by_cases h : jsToLower a = jsToLower b
  · simp [h]
  · simp [beq_eq_false_iff_ne.mpr h, beq_eq_false_iff_ne.mpr (Ne.symm h)]

theorem findAppend {α : Type} (l₁ l₂ : List α) (p : α → Bool) :
    (l₁ ++ l₂).find? p =
      match l₁.find? p with
      | some a => some a
      | none => l₂.find? p := by
  induction l₁ with
  | nil => rfl
  | cons a t ih =>
    by_cases h : p a = true
    · simp [List.find?, h]
    · simp only [Bool.not_eq_true] at h
      simp [List.find?, h, ih]

theorem findFilterNone {α : Type} (l : List α) (q r : α → Bool)
    (h : ∀ x, r x = true → q x = false) : (l.filter q).find? r = none := by
  induction l with
  | nil => rfl
  | cons a t ih =>
    by_cases hq : q a = true
    · rw [List.filter_cons_of_pos hq]
      have hr : r a = false := by
        cases hra : r a
        · rfl
        · rw [h a hra] at hq
          exact Bool.noConfusion hq
      simp [List.find?, hr, ih]
    · rw [List.filter_cons_of_neg (by simpa using hq)]
      exact ih

theorem findFilterSame {α : Type} (l : List α) (q r : α → Bool)
    (h : ∀ x, r x = true → q x = true) : (l.filter q).find? r = l.find? r := by
  induction l with
  | nil => rfl
  | cons a t ih =>
    by_cases hq : q a = true
    · rw [List.filter_cons_of_pos hq]
      by_cases hr : r a = true
      · simp [List.find?, hr]
      · simp only [Bool.not_eq_true] at hr
        simp [List.find?, hr, ih]
    · have hra : r a = false := by
        cases hra : r a
        · rfl
        · exact absurd (h a hra) hq
      rw [List.filter_cons_of_neg (by simpa using hq)]
      simp [List.find?, hra, ih]

theorem headersGet_delete_same (hs : List (String × String)) (n m : String)
    (h : lowerEq m n = true) : headersGet (headersDelete hs n) m = none := by
  unfold headersGet headersDelete
  rw [findFilterNone]
  · rfl
  · intro x hx
    rw [lowerEq_trans_eq x.1 m n hx, h]
    rfl

theorem headersGet_delete_other (hs : List (String × String)) (n m : String)
    (h : lowerEq m n = false) : headersGet (headersDelete hs n) m = headersGet hs m := by
  unfold headersGet headersDelete
  rw [findFilterSame]
  intro x hx
  rw [lowerEq_trans_eq x.1 m n hx, h]
  rfl

theorem headersGet_set_same (hs : List (String × String)) (n v m : String)
    (h : lowerEq m n = true) : headersGet (headersSet hs n v) m = some v := by
  unfold headersGet headersSet
  rw [findAppend, findFilterNone]
  · have hn : lowerEq n m = true := by
      rw [lowerEq_symm]
      exact h
    simp [List.find?, hn]
  · intro x hx
    rw [lowerEq_trans_eq x.1 m n hx, h]
    rfl

theorem headersGet_set_other (hs : List (String × String)) (n v m : String)
    (h : lowerEq m n = false) : headersGet (headersSet hs n v) m = headersGet hs m := by
  unfold headersGet headersSet
  rw [findAppend, findFilterSame]
  · have hn : lowerEq n m = false := by
      rw [lowerEq_symm]
      exact h
    cases hfind : List.find? (fun p => lowerEq p.1 m) hs
    · simp [List.find?, hn]
    · simp
  · intro x hx
    rw [lowerEq_trans_eq x.1 m n hx, h]
    rfl

theorem hardenHeaders_secure (hs : List (String × String)) (ao rid : String) :
    headersGet (hardenHeaders hs ao rid) "X-Frame-Options" = some "DENY" ∧
    headersGet (hardenHeaders hs ao rid) "Server" = none ∧
    headersGet (hardenHeaders hs ao rid) "X-Powered-By" = none := by
  simp only [hardenHeaders]
  refine ⟨?_, ?_, ?_⟩
  · rw [headersGet_delete_other _ _ _ (by decide),
      headersGet_delete_other _ _ _ (by decide),
      headersGet_set_other _ _ _ _ (by decide),
      headersGet_set_other _ _ _ _ (by decide),
      headersGet_set_other _ _ _ _ (by decide),
      headersGet_set_other _ _ _ _ (by decide),
      headersGet_set_other _ _ _ _ (by decide),
      headersGet_set_other _ _ _ _ (by decide),
      headersGet_set_same _ _ _ _ (by decide)]
  · rw [headersGet_delete_other _ _ _ (by decide),
      headersGet_delete_same _ _ _ (by decide)]
  · rw [headersGet_delete_same _ _ _ (by decide)]

/-! Reduction of the handler on the proxy branch (shared by claims C2, C6, C10). -/

theorem fetchHandler_proxyThrows (req : Req) (env : EnvCfg) (rid : String) (e : JsError)
    (upstream : String → UpstreamResult)
    (hup : ∀ t, upstream t = UpstreamResult.throws e)
    (hvalid : (validateApiUrl (jsOr env.K8S_API_URL DEFAULT_UPSTREAM_URL)).valid = true)
    (hrob : req.pathname ≠ "/robots.txt")
    (hopt : req.method ≠ "OPTIONS")
    (hph : req.pathname ≠ "/kubernetes/proxy-health")
    (hk8s : jsStartsWith req.pathname "/kubernetes" = true)
    (hdash : isDashboardPath req.pathname = false)
    (hcors : ¬ (jsOr env.ALLOWED_ORIGIN "*" ≠ "*" ∧ truthyOpt req.origin = true ∧
      (validateOrigin req.origin (jsOr env.ALLOWED_ORIGIN "*")).allowed = false)) :
    fetchHandler req env rid upstream =
      Outcome.response (createErrorResponse e rid (jsOr env.ENVIRONMENT "production")
        (jsOr env.ALLOWED_ORIGIN "*")) := by
  simp only [fetchHandler]
  simp [hvalid, hrob, hopt, hph, hk8s, hdash, hcors, hup]

theorem fetchHandler_proxyOk (req : Req) (env : EnvCfg) (rid : String)
    (s : Nat) (hs : List (String × String)) (b : String)
    (upstream : String → UpstreamResult)
    (hup : ∀ t, upstream t = UpstreamResult.ok s hs b)
    (hvalid : (validateApiUrl (jsOr env.K8S_API_URL DEFAULT_UPSTREAM_URL)).valid = true)
    (hrob : req.pathname ≠ "/robots.txt")
    (hopt : req.method ≠ "OPTIONS")
    (hph : req.pathname ≠ "/kubernetes/proxy-health")
    (hk8s : jsStartsWith req.pathname "/kubernetes" = true)
    (hdash : isDashboardPath req.pathname = false)
    (hcors : ¬ (jsOr env.ALLOWED_ORIGIN "*" ≠ "*" ∧ truthyOpt req.origin = true ∧
      (validateOrigin req.origin (jsOr env.ALLOWED_ORIGIN "*")).allowed = false))
    (hws : (req.upgrade.any fun u => jsToLower u == "websocket") = false) :
    fetchHandler req env rid upstream =
      Outcome.response ⟨s,
        hardenHeaders hs
          (jsOrS (validateOrigin req.origin (jsOr env.ALLOWED_ORIGIN "*")).matchedOrigin
            (if jsOr env.ALLOWED_ORIGIN "*" = "*" then "*" else ""))
          rid,
        Body.upstream b⟩ := by
  simp only [fetchHandler]
  simp [hvalid, hrob, hopt, hph, hk8s, hdash, hcors, hws, hup]

/-- C2: whenever the upstream fetch throws on the proxy branch, the handler answers
502 with a JSON body whose error field is "Gateway Error", and the details and stack
fields are present if and only if the effective environment mode is development. -/
theorem gatewayError_on_throw (req : Req) (env : EnvCfg) (rid : String) (e : JsError)
    (upstream : String → UpstreamResult)
    (hup : ∀ t, upstream t = UpstreamResult.throws e)
    (hvalid : (validateApiUrl (jsOr env.K8S_API_URL DEFAULT_UPSTREAM_URL)).valid = true)
    (hrob : req.pathname ≠ "/robots.txt")
    (hopt : req.method ≠ "OPTIONS")
    (hph : req.pathname ≠ "/kubernetes/proxy-health")
    (hk8s : jsStartsWith req.pathname "/kubernetes" = true)
    (hdash : isDashboardPath req.pathname = false)
    (hcors : ¬ (jsOr env.ALLOWED_ORIGIN "*" ≠ "*" ∧ truthyOpt req.origin = true ∧
      (validateOrigin req.origin (jsOr env.ALLOWED_ORIGIN "*")).allowed = false)) :
    ∃ eb : ErrorBody,
      fetchHandler req env rid upstream = Outcome.response ⟨502,
        [("Content-Type", "application/json"),
         ("Access-Control-Allow-Origin", jsOrS (jsOr env.ALLOWED_ORIGIN "*") "*")],
        Body.gatewayError eb⟩ ∧
      eb.error = "Gateway Error" ∧
      (eb.details.isSome = true ↔ jsOr env.ENVIRONMENT "production" = "development") ∧
      (eb.stack.isSome = true ↔ jsOr env.ENVIRONMENT "production" = "development") := by
  refine ⟨⟨"Gateway Error", "The Kubernetes API server could not be reached.", rid,
    (if jsOr env.ENVIRONMENT "production" = "development" then some e.message else none),
    (if jsOr env.ENVIRONMENT "production" = "development" then some e.stack else none)⟩,
    ?_, rfl, ?_, ?_⟩
  · rw [fetchHandler_proxyThrows req env rid e upstream hup hvalid hrob hopt hph hk8s
      hdash hcors]
    rfl
  · by_cases hdev : jsOr env.ENVIRONMENT "production" = "development" <;> simp [hdev]
  · by_cases hdev : jsOr env.ENVIRONMENT "production" = "development" <;> simp [hdev]

/-- C2 witness: a concrete proxied request whose upstream throws, in production mode. -/
theorem gatewayError_on_throw_witness :
    ∃ eb : ErrorBody,
      fetchHandler ⟨"GET", "/kubernetes/api/v1/pods", "", none, none⟩
          ⟨none, none, none, none⟩ "rid-c2"
          (fun _ => UpstreamResult.throws ⟨"boom", "trace"⟩) =
        Outcome.response ⟨502,
          [("Content-Type", "application/json"), ("Access-Control-Allow-Origin", "*")],
          Body.gatewayError eb⟩ ∧
      eb.error = "Gateway Error" ∧
      (eb.details.isSome = true ↔ ("production" : String) = "development") ∧
      (eb.stack.isSome = true ↔ ("production" : String) = "development") :=
  gatewayError_on_throw _ _ _ _ _ (fun _ => rfl) (by decide) (by decide) (by decide)
    (by decide) (by decide) (by decide) (by decide)

/-- C10: the 502 Gateway Error response carries an Access-Control-Allow-Origin header
equal to the configured allowed-origin string verbatim (or `*` when the configuration
is unset or empty), for every error, request id and environment mode — even when the
string is a comma-separated list or a `*.domain` pattern, and even when the request's
origin was not allowed. -/
theorem gatewayError_acao_verbatim (req : Req) (env : EnvCfg) (rid : String) (e : JsError)
    (upstream : String → UpstreamResult)
    (hup : ∀ t, upstream t = UpstreamResult.throws e)
    (hvalid : (validateApiUrl (jsOr env.K8S_API_URL DEFAULT_UPSTREAM_URL)).valid = true)
    (hrob : req.pathname ≠ "/robots.txt")
    (hopt : req.method ≠ "OPTIONS")
    (hph : req.pathname ≠ "/kubernetes/proxy-health")
    (hk8s : jsStartsWith req.pathname "/kubernetes" = true)
    (hdash : isDashboardPath req.pathname = false)
    (hcors : ¬ (jsOr env.ALLOWED_ORIGIN "*" ≠ "*" ∧ truthyOpt req.origin = true ∧
      (validateOrigin req.origin (jsOr env.ALLOWED_ORIGIN "*")).allowed = false)) :
    ∃ r : Resp,
      fetchHandler req env rid upstream = Outcome.response r ∧ r.status = 502 ∧
      headersGet r.headers "Access-Control-Allow-Origin" =
        some (jsOr env.ALLOWED_ORIGIN "*") := by
  refine ⟨_, fetchHandler_proxyThrows req env rid e upstream hup hvalid hrob hopt hph
    hk8s hdash hcors, rfl, ?_⟩
  have h1 : lowerEq "Content-Type" "Access-Control-Allow-Origin" = false := by decide
  have h2 : lowerEq "Access-Control-Allow-Origin" "Access-Control-Allow-Origin" = true := by
    decide
  have h3 : jsOr env.ALLOWED_ORIGIN "*" ≠ "" := by
    cases ho : env.ALLOWED_ORIGIN with
    | none => decide
    | some s =>
      simp only [jsOr, jsOrS]
      split
      · decide
      · assumption
  simp only [createErrorResponse, headersGet, List.find?, h1, h2]
  simp [jsOrS, h3]

/-- C10 witness: a comma-separated pattern list is echoed verbatim on the 502 path. -/
theorem gatewayError_acao_verbatim_witness :
    ∃ r : Resp,
      fetchHandler ⟨"DELETE", "/kubernetes/api/v1/pods/p1", "", none, none⟩
          ⟨none, some "https://a.com,*.b.com", none, none⟩ "rid-c10"
          (fun _ => UpstreamResult.throws ⟨"down", "st"⟩) = Outcome.response r ∧
      r.status = 502 ∧
      headersGet r.headers "Access-Control-Allow-Origin" = some "https://a.com,*.b.com" :=
  gatewayError_acao_verbatim _ _ _ _ _ (fun _ => rfl) (by decide) (by decide) (by decide)
    (by decide) (by decide) (by decide) (by decide)

/-- C6: every successfully proxied (non-websocket) response carries
`X-Frame-Options: DENY` and carries neither a `Server` nor an `X-Powered-By` header,
regardless of the headers the upstream response had. -/
theorem proxySuccess_hardened (req : Req) (env : EnvCfg) (rid : String)
    (s : Nat) (hs : List (String × String)) (b : String)
    (upstream : String → UpstreamResult)
    (hup : ∀ t, upstream t = UpstreamResult.ok s hs b)
    (hvalid : (validateApiUrl (jsOr env.K8S_API_URL DEFAULT_UPSTREAM_URL)).valid = true)
    (hrob : req.pathname ≠ "/robots.txt")
    (hopt : req.method ≠ "OPTIONS")
    (hph : req.pathname ≠ "/kubernetes/proxy-health")
    (hk8s : jsStartsWith req.pathname "/kubernetes" = true)
    (hdash : isDashboardPath req.pathname = false)
    (hcors : ¬ (jsOr env.ALLOWED_ORIGIN "*" ≠ "*" ∧ truthyOpt req.origin = true ∧
      (validateOrigin req.origin (jsOr env.ALLOWED_ORIGIN "*")).allowed = false))
    (hws : (req.upgrade.any fun u => jsToLower u == "websocket") = false) :
    ∃ r : Resp,
      fetchHandler req env rid upstream = Outcome.response r ∧
      headersGet r.headers "X-Frame-Options" = some "DENY" ∧
      headersGet r.headers "Server" = none ∧
      headersGet r.headers "X-Powered-By" = none := by
  have hsec := hardenHeaders_secure hs
    (jsOrS (validateOrigin req.origin (jsOr env.ALLOWED_ORIGIN "*")).matchedOrigin
      (if jsOr env.ALLOWED_ORIGIN "*" = "*" then "*" else "")) rid
  refine ⟨⟨s,
    hardenHeaders hs
      (jsOrS (validateOrigin req.origin (jsOr env.ALLOWED_ORIGIN "*")).matchedOrigin
        (if jsOr env.ALLOWED_ORIGIN "*" = "*" then "*" else "")) rid,
    Body.upstream b⟩,
    fetchHandler_proxyOk req env rid s hs b upstream hup hvalid hrob hopt hph
      hk8s hdash hcors hws, ?_, ?_, ?_⟩
  · dsimp only
    exact hsec.1
  · dsimp only
    exact hsec.2.1
  · dsimp only
    exact hsec.2.2

/-- C6 witness: an upstream that sets Server, X-Powered-By and a different
X-Frame-Options is still hardened. -/
theorem proxySuccess_hardened_witness :
    ∃ r : Resp,
      fetchHandler ⟨"GET", "/kubernetes/api/v1/pods", "?limit=5", none, none⟩
          ⟨none, none, none, none⟩ "rid-c6"
          (fun _ => UpstreamResult.ok 200
            [("Server", "nginx"), ("X-Powered-By", "Express"), ("X-Frame-Options", "ALLOWALL")]
            "pods-json") = Outcome.response r ∧
      headersGet r.headers "X-Frame-Options" = some "DENY" ∧
      headersGet r.headers "Server" = none ∧
      headersGet r.headers "X-Powered-By" = none :=
  proxySuccess_hardened _ _ _ _ _ _ _ (fun _ => rfl) (by decide) (by decide) (by decide)
    (by decide) (by decide) (by decide) (by decide) (by decide)

/-! Configuration validation (claim C7). -/

theorem validateApiUrl_reason_mem (u r : String)
    (h : validateApiUrl u = ⟨false, some r⟩) :
    r = "URL is required and must be a string" ∨ r = "URL is malformed" ∨
    r = "URL must use HTTPS protocol" ∨ r = "URL must have a valid hostname" ∨
    r = "URL cannot point to localhost or private networks" := by
  simp only [validateApiUrl] at h
  split at h
  · simp only [UrlValidation.mk.injEq, Option.some.injEq] at h
    exact Or.inl h.2.symm
  · split at h
    · simp only [UrlValidation.mk.injEq, Option.some.injEq] at h
      exact Or.inr (Or.inl h.2.symm)
    · split at h
      · simp only [UrlValidation.mk.injEq, Option.some.injEq] at h
        exact Or.inr (Or.inr (Or.inl h.2.symm))
      · split at h
        · simp only [UrlValidation.mk.injEq, Option.some.injEq] at h
          exact Or.inr (Or.inr (Or.inr (Or.inl h.2.symm)))
        · split at h
          · simp only [UrlValidation.mk.injEq, Option.some.injEq] at h
            exact Or.inr (Or.inr (Or.inr (Or.inr h.2.symm)))
          · simp only [UrlValidation.mk.injEq] at h
            exact absurd h.1 (by decide)

theorem validateApiUrl_reason_ne (u r : String)
    (h : validateApiUrl u = ⟨false, some r⟩) : r ≠ "Server misconfigured" := by
  rcases validateApiUrl_reason_mem u r h with h1 | h1 | h1 | h1 | h1 <;>
    (subst h1; decide)

/-- C7: when the effective upstream base URL fails validation the handler responds 500
at once — for every request, method and path, and independently of the upstream — and
the body's message is the validator's reason exactly when the environment mode is
development, a generic message otherwise (the reason is never that generic message). -/
theorem configError_500 (req : Req) (env : EnvCfg) (rid : String)
    (upstream : String → UpstreamResult) (reason : String)
    (hinv : validateApiUrl (jsOr env.K8S_API_URL DEFAULT_UPSTREAM_URL) =
      ⟨false, some reason⟩) :
    fetchHandler req env rid upstream = Outcome.response ⟨500,
      [("Content-Type", "application/json")],
      Body.configError
        (if jsOr env.ENVIRONMENT "production" = "development" then reason
         else "Server misconfigured") rid⟩ ∧
    reason ≠ "Server misconfigured" := by
  constructor
  · simp only [fetchHandler]
    rw [hinv]
    simp
  · exact validateApiUrl_reason_ne _ _ hinv

/-- C7 witness: a non-HTTPS upstream URL is rejected with 500 and, in production,
the generic message. -/
theorem configError_500_witness :
    (fetchHandler ⟨"GET", "/anything", "", none, none⟩
        ⟨some "http://insecure.example", none, none, none⟩ "rid-c7"
        (fun _ => UpstreamResult.throws ⟨"x", "y"⟩) =
      Outcome.response ⟨500, [("Content-Type", "application/json")],
        Body.configError "Server misconfigured" "rid-c7"⟩) ∧
    ("URL must use HTTPS protocol" : String) ≠ "Server misconfigured" :=
  configError_500 _ _ _ _ "URL must use HTTPS protocol" (by decide)

/-! Routing: the 404 branch (claim C1). -/

/-- C1 (amended): every request with a valid upstream configuration, a method other
than OPTIONS and a path that is not "/robots.txt" and does not start with
"/kubernetes" receives exactly status 404. -/
theorem notFound_404 (req : Req) (env : EnvCfg) (rid : String)
    (upstream : String → UpstreamResult)
    (hvalid : (validateApiUrl (jsOr env.K8S_API_URL DEFAULT_UPSTREAM_URL)).valid = true)
    (hrob : req.pathname ≠ "/robots.txt")
    (hopt : req.method ≠ "OPTIONS")
    (hk8s : jsStartsWith req.pathname "/kubernetes" = false) :
    fetchHandler req env rid upstream =
      Outcome.response ⟨404, [], Body.text "Not Found"⟩ := by
  have hph : req.pathname ≠ "/kubernetes/proxy-health" := by
    intro hp
    rw [hp] at hk8s
    exact absurd hk8s (by decide)
  simp only [fetchHandler]
  simp [hvalid, hrob, hopt, hph, hk8s]

/-- C1 amended-claim witness. -/
theorem notFound_404_witness :
    fetchHandler ⟨"GET", "/api/other", "", none, none⟩ ⟨none, none, none, none⟩ "rid-c1"
        (fun _ => UpstreamResult.throws ⟨"m", "s"⟩) =
      Outcome.response ⟨404, [], Body.text "Not Found"⟩ :=
  notFound_404 _ _ _ _ (by decide) (by decide) (by decide) (by decide)

/-- C1 counterexample: the path "/robots.txt" does not start with "/kubernetes", yet
a GET request for it is answered 200 by the robots branch, not 404. -/
theorem notFound_404_counterexample :
    jsStartsWith "/robots.txt" "/kubernetes" = false ∧
    fetchHandler ⟨"GET", "/robots.txt", "", none, none⟩ ⟨none, none, none, none⟩ "rid-c1x"
        (fun _ => UpstreamResult.throws ⟨"m", "s"⟩) =
      Outcome.response ⟨200, [("Content-Type", "text/plain")],
        Body.text "User-agent: *\nDisallow: /"⟩ ∧
    (200 : Nat) ≠ 404 :=
  ⟨by decide, rfl, by decide⟩

/-! CORS preflight (claim C3). -/

/-- C3 (amended): for every OPTIONS request with a valid upstream configuration whose
path is not "/robots.txt": when the policy is not Wildcard and the origin decision is
not allowed, the response is 403 with an empty body; otherwise it is 204 carrying the
fixed methods list, the fixed allowed-headers list, the 86400-second max-age and the
echo origin. Both outcomes hold for every `upstream`, so the upstream is never
contacted. -/
theorem optionsPreflight (req : Req) (env : EnvCfg) (rid : String)
    (upstream : String → UpstreamResult)
    (hvalid : (validateApiUrl (jsOr env.K8S_API_URL DEFAULT_UPSTREAM_URL)).valid = true)
    (hrob : req.pathname ≠ "/robots.txt")
    (hopt : req.method = "OPTIONS") :
    ((validateOrigin req.origin (jsOr env.ALLOWED_ORIGIN "*")).allowed = false ∧
        jsOr env.ALLOWED_ORIGIN "*" ≠ "*" →
      fetchHandler req env rid upstream = Outcome.response ⟨403, [], Body.empty⟩) ∧
    ((validateOrigin req.origin (jsOr env.ALLOWED_ORIGIN "*")).allowed = true ∨
        jsOr env.ALLOWED_ORIGIN "*" = "*" →
      fetchHandler req env rid upstream = Outcome.response
        ⟨204,
         [("Access-Control-Allow-Origin",
            (validateOrigin req.origin (jsOr env.ALLOWED_ORIGIN "*")).matchedOrigin),
          ("Access-Control-Allow-Methods", "GET, POST, PUT, DELETE, OPTIONS, PATCH"),
          ("Access-Control-Allow-Headers",
            "Authorization, Content-Type, X-CSRF-Token, X-Request-ID, Upgrade, Connection"),
          ("Access-Control-Expose-Headers", "X-Request-ID"),
          ("Access-Control-Max-Age", "86400")],
         Body.empty⟩) := by
  constructor
  · rintro ⟨h1, h2⟩
    simp only [fetchHandler]
    simp [hvalid, hrob, hopt, h1, h2]
  · intro h
    have hallow : (validateOrigin req.origin (jsOr env.ALLOWED_ORIGIN "*")).allowed = true := by
      rcases h with h | h
      · exact h
      · rw [h]
        simp [validateOrigin]
    have hm : (validateOrigin req.origin (jsOr env.ALLOWED_ORIGIN "*")).matchedOrigin ≠ "" :=
      validateOrigin_matched_ne_empty _ _ hallow
    simp only [fetchHandler]
    simp [hvalid, hrob, hopt, hallow, handleCorsPreflight, jsOrS, hm]

/-- C3 amended-claim witness: an OPTIONS preflight under the default wildcard policy. -/
theorem optionsPreflight_witness :
    fetchHandler ⟨"OPTIONS", "/kubernetes/api/v1", "", none, none⟩ ⟨none, none, none, none⟩
        "rid-c3" (fun _ => UpstreamResult.throws ⟨"m", "s"⟩) =
      Outcome.response
        ⟨204,
         [("Access-Control-Allow-Origin", "*"),
          ("Access-Control-Allow-Methods", "GET, POST, PUT, DELETE, OPTIONS, PATCH"),
          ("Access-Control-Allow-Headers",
            "Authorization, Content-Type, X-CSRF-Token, X-Request-ID, Upgrade, Connection"),
          ("Access-Control-Expose-Headers", "X-Request-ID"),
          ("Access-Control-Max-Age", "86400")],
         Body.empty⟩ :=
  (optionsPreflight _ _ _ _ (by decide) (by decide) rfl).2 (Or.inr rfl)

/-- C3 counterexample: an OPTIONS request for "/robots.txt" with a disallowed origin
under a non-wildcard policy is answered 200 by the robots branch — neither the 403 nor
the 204 the claim requires for every OPTIONS request. -/
theorem optionsPreflight_counterexample :
    (validateOrigin (some "https://evil.example") "https://good.example").allowed = false ∧
    fetchHandler ⟨"OPTIONS", "/robots.txt", "", some "https://evil.example", none⟩
        ⟨none, some "https://good.example", none, none⟩ "rid-c3x"
        (fun _ => UpstreamResult.throws ⟨"m", "s"⟩) =
      Outcome.response ⟨200, [("Content-Type", "text/plain")],
        Body.text "User-agent: *\nDisallow: /"⟩ ∧
    (200 : Nat) ≠ 403 ∧ (200 : Nat) ≠ 204 :=
  ⟨by decide, rfl, by decide, by decide⟩
